import Mathlib

/-!
Shallow embedding of the token-acquisition and caching subsystem of the
Guesty booking proxy (Netlify serverless handlers).  Each handler file holds
its own copy of `getAccessToken`; every variant that a claim cites is
embedded here in its own namespace, faithful to its source file:

* `GetAvailability` — src/netlify/functions/get-availability.js (Redis tier)
* `GetQuote`        — src/netlify/functions/get-quote.js (local cache only)
* `Part000`         — src/unnamed/part_000 (simple in-memory cache)
* `Part001`         — src/unnamed/part_001 (Netlify Blobs tier)
* `Part002`         — src/unnamed/part_002 (no cache, no checks)
* `Part003`         — src/unnamed/part_003 (Redis tier, Retry-After backoff)

JavaScript semantics captured by the model: numbers that can become `NaN`
(`expires_in` missing) are `Option Int`; truthiness of strings and numbers
follows JS; a thrown error is `Except.error`; the network and the durable
store are oracles supplied in an environment record; every network
interaction is recorded in an effect trace.
-/

namespace GuestyToken

/-- A JavaScript number that may be `NaN` (`none`). -/
abbrev JsNum := Option Int

/-- JS `<` on possibly-NaN numbers: any comparison with NaN is false. -/
def jsLt (a b : JsNum) : Bool :=
  match a, b with
  | some x, some y => decide (x < y)
  | _, _ => false

/-- Subtract a constant, propagating NaN. -/
def jsSub (a : JsNum) (k : Int) : JsNum := a.map (fun x => x - k)

/-- Add a constant, propagating NaN. -/
def jsAdd (a : JsNum) (k : Int) : JsNum := a.map (fun x => x + k)

/-- JS truthiness of a string-or-undefined value: `undefined` and `""` are falsy. -/
def truthyStr : Option String → Bool
  | none => false
  | some s => !(s == "")

/-- JS truthiness of a number-or-undefined value: `undefined`, `NaN` and `0` are falsy. -/
def truthyNum : JsNum → Bool
  | none => false
  | some n => !(n == 0)

/-- `response.ok`: HTTP status in the range [200, 300). -/
def responseOk (s : Nat) : Bool := decide (200 ≤ s ∧ s < 300)

/-- The JSON record `{token, expiry}` persisted in the durable store;
either field may be absent from the parsed JSON. -/
structure StoredRec where
  token : Option String
  expiry : JsNum
deriving Repr, DecidableEq

/-- The process-local module variables `cachedToken` / `tokenExpiry`. -/
structure LocalCache where
  cachedToken : Option String
  tokenExpiry : JsNum
deriving Repr, DecidableEq

/-- An HTTP response of the credential endpoint, as far as the code reads it:
status, optional parsed `Retry-After` header, body text, whether the body
parses as JSON, and the `access_token` / `expires_in` fields if present. -/
structure TokenResponse where
  status : Nat
  retryAfter : Option Int
  bodyText : String
  jsonOk : Bool
  access_token : Option String
  expires_in : JsNum
deriving Repr, DecidableEq

/-- Outcome of one `fetch` of the credential endpoint: the promise rejects
(network error) or resolves with a response. -/
inductive FetchOutcome
  | netError (msg : String)
  | success (r : TokenResponse)
deriving Repr, DecidableEq

/-- The errors `getAccessToken` can throw. -/
inductive JsError
  | netError (msg : String)
  | tokenFailed (status : Nat) (text : String)
  | requestFailed (status : Nat)
  | noToken (body : String)
  | jsonError
deriving Repr, DecidableEq

/-- Outcome of the Upstash Redis REST `get` round trip, as far as
`getFromRedis` reads it. -/
inductive RedisGetOutcome
  | netError (msg : String)
  | noResult
  | parseError
  | value (v : StoredRec)
deriving Repr, DecidableEq

/-- Outcome of the Netlify Blobs `store.get` round trip, as far as
`getStoredToken` reads it. -/
inductive BlobGetOutcome
  | netError (msg : String)
  | noData
  | value (v : StoredRec)
deriving Repr, DecidableEq

/-- Network interactions performed during one `getAccessToken` call. -/
inductive Effect
  | storeRead
  | tokenFetch
  | sleep (ms : Int)
  | storeWrite (token : Option String) (expiry : JsNum)
deriving Repr, DecidableEq

deriving instance DecidableEq for Except

/-- Result of one `getAccessToken` call: the returned value or thrown error,
the final state of the local cache variables, and the effect trace. -/
structure RunResult where
  result : Except JsError (Option String)
  cache : LocalCache
  effects : List Effect
deriving Repr, DecidableEq

/-- Environment of one call in the Redis-backed variants: the clock,
whether the Upstash env vars are set, the Redis read outcome, the Redis
write outcome, and the credential-endpoint response per attempt number. -/
structure Env where
  now : Int
  storeConfigured : Bool
  storeGet : RedisGetOutcome
  storeSet : Except String Unit
  fetches : Nat → FetchOutcome

/-- Environment of one call in the blob-backed variant. -/
structure BlobEnv where
  now : Int
  blobGet : BlobGetOutcome
  blobSet : Except String Unit
  fetches : Nat → FetchOutcome

/-- Environment of the single-fetch variants. -/
structure BasicEnv where
  now : Int
  fetch0 : FetchOutcome

/-- Number of credential-endpoint requests in an effect trace. -/
def fetchCount (l : List Effect) : Nat :=
  l.countP (fun e => decide (e = Effect.tokenFetch))

/-- `now + (data.expires_in * 1000)`: NaN when `expires_in` is absent. -/
def newExpiryOf (now : Int) (ei : JsNum) : JsNum :=
  ei.map (fun s => now + s * 1000)

namespace GetAvailability

/-- `getFromRedis` (get-availability.js lines 16–31): returns the parsed
stored record, and `null` when the store is not configured, the fetch or
JSON decode throws, `data.result` is falsy, or `JSON.parse` throws. -/
def getFromRedis (configured : Bool) (g : RedisGetOutcome) : Option StoredRec :=
  if !configured then none
  else
    match g with
    | .netError _ => none
    | .noResult => none
    | .parseError => none
    | .value v => some v

/-- `setInRedis` (get-availability.js lines 33–46): best-effort write; a
missing configuration returns, and any error of the fetch is caught and
logged, so the call never throws. -/
def setInRedis (configured : Bool) (w : Except String Unit) : Except JsError Unit :=
  if !configured then .ok ()
  else
    match w with
    | .ok _ => .ok ()
    | .error _ => .ok ()

/-- The in-memory freshness test `cachedToken && now < tokenExpiry - 300000`
(get-availability.js line 52). -/
def localFresh (now : Int) (cache : LocalCache) : Bool :=
  truthyStr cache.cachedToken && jsLt (some now) (jsSub cache.tokenExpiry 300000)

/-- The Redis freshness test `stored && stored.expiry && now < stored.expiry - 300000`
(get-availability.js line 58). -/
def redisFresh (now : Int) (stored : Option StoredRec) : Bool :=
  match stored with
  | some s => truthyNum s.expiry && jsLt (some now) (jsSub s.expiry 300000)
  | none => false

/-- The `catch` block of `getAccessToken` (get-availability.js lines 102–110):
fall back to the in-memory token if within the one-hour grace window, else to
the Redis record if it holds a token (no time check), else rethrow. -/
def tokenCatch (now : Int) (stored : Option StoredRec) (cache : LocalCache)
    (e : JsError) : Except JsError (Option String) :=
  if truthyStr cache.cachedToken && jsLt (some now) (jsAdd cache.tokenExpiry 3600000) then
    .ok cache.cachedToken
  else
    match stored with
    | some s => if truthyStr s.token then .ok s.token else .error e
    | none => .error e

/-- `getAccessToken` (get-availability.js lines 48–111): local cache check,
Redis check with promotion, remote fetch with up to three retries on 429
(backoff `2^retryCount` seconds), response validation, caching, and the
stale-token fallback in the catch. -/
def getAccessToken (env : Env) (cache : LocalCache) (retryCount : Nat) : RunResult :=
  let now := env.now
  if localFresh now cache then
    ⟨.ok cache.cachedToken, cache, []⟩
  else
    let stored := getFromRedis env.storeConfigured env.storeGet
    if redisFresh now stored then
      let s := stored.getD ⟨none, none⟩
      ⟨.ok s.token, ⟨s.token, s.expiry⟩, [.storeRead]⟩
    else
      match env.fetches retryCount with
      | .netError m =>
          ⟨tokenCatch now stored cache (.netError m), cache, [.storeRead, .tokenFetch]⟩
      | .success r =>
          if h : r.status = 429 ∧ retryCount < 3 then
            let inner := getAccessToken env cache (retryCount + 1)
            ⟨(match inner.result with
              | .ok v => .ok v
              | .error e => tokenCatch now stored inner.cache e),
             inner.cache,
             .storeRead :: .tokenFetch :: .sleep ((2 : Int) ^ retryCount * 1000) :: inner.effects⟩
          else if !responseOk r.status then
            ⟨tokenCatch now stored cache (.tokenFailed r.status r.bodyText), cache,
             [.storeRead, .tokenFetch]⟩
          else if !r.jsonOk then
            ⟨tokenCatch now stored cache .jsonError, cache, [.storeRead, .tokenFetch]⟩
          else if !truthyStr r.access_token then
            ⟨tokenCatch now stored cache (.noToken r.bodyText), cache,
             [.storeRead, .tokenFetch]⟩
          else
            let newExpiry := newExpiryOf now r.expires_in
            let cache2 : LocalCache := ⟨r.access_token, newExpiry⟩
            match setInRedis env.storeConfigured env.storeSet with
            | .ok _ =>
                ⟨.ok r.access_token, cache2,
                 [.storeRead, .tokenFetch, .storeWrite r.access_token newExpiry]⟩
            | .error e =>
                ⟨tokenCatch now stored cache2 e, cache2,
                 [.storeRead, .tokenFetch, .storeWrite r.access_token newExpiry]⟩
termination_by 3 - retryCount
decreasing_by
  exact Nat.sub_lt_sub_left h.2 (Nat.lt_succ_self retryCount)

end GetAvailability

namespace Part003

/-- `getAccessToken` (src/unnamed/part_003, the get-quote handler variant):
identical to the one in get-availability.js — whose `getFromRedis`,
`setInRedis`, freshness tests and catch block it duplicates verbatim —
except for the 429 backoff, which honours the `Retry-After` header when
present and otherwise waits `2^(retryCount+1)` seconds. -/
def getAccessToken (env : Env) (cache : LocalCache) (retryCount : Nat) : RunResult :=
  let now := env.now
  if GetAvailability.localFresh now cache then
    ⟨.ok cache.cachedToken, cache, []⟩
  else
    let stored := GetAvailability.getFromRedis env.storeConfigured env.storeGet
    if GetAvailability.redisFresh now stored then
      let s := stored.getD ⟨none, none⟩
      ⟨.ok s.token, ⟨s.token, s.expiry⟩, [.storeRead]⟩
    else
      match env.fetches retryCount with
      | .netError m =>
          ⟨GetAvailability.tokenCatch now stored cache (.netError m), cache,
           [.storeRead, .tokenFetch]⟩
      | .success r =>
          if h : r.status = 429 ∧ retryCount < 3 then
            let waitTime : Int :=
              (match r.retryAfter with
               | some a => a
               | none => (2 : Int) ^ (retryCount + 1) : Int) * 1000
            let inner := getAccessToken env cache (retryCount + 1)
            ⟨(match inner.result with
              | .ok v => .ok v
              | .error e => GetAvailability.tokenCatch now stored inner.cache e),
             inner.cache,
             .storeRead :: .tokenFetch :: .sleep waitTime :: inner.effects⟩
          else if !responseOk r.status then
            ⟨GetAvailability.tokenCatch now stored cache (.tokenFailed r.status r.bodyText),
             cache, [.storeRead, .tokenFetch]⟩
          else if !r.jsonOk then
            ⟨GetAvailability.tokenCatch now stored cache .jsonError, cache,
             [.storeRead, .tokenFetch]⟩
          else
            let newExpiry := newExpiryOf now r.expires_in
            let cache2 : LocalCache := ⟨r.access_token, newExpiry⟩
            match GetAvailability.setInRedis env.storeConfigured env.storeSet with
            | .ok _ =>
                ⟨.ok r.access_token, cache2,
                 [.storeRead, .tokenFetch, .storeWrite r.access_token newExpiry]⟩
            | .error e =>
                ⟨GetAvailability.tokenCatch now stored cache2 e, cache2,
                 [.storeRead, .tokenFetch, .storeWrite r.access_token newExpiry]⟩
termination_by 3 - retryCount
decreasing_by
  exact Nat.sub_lt_sub_left h.2 (Nat.lt_succ_self retryCount)

end Part003

namespace Part001

/-- `getStoredToken` (src/unnamed/part_001 lines 13–24): reads the blob
record, returning it only when it is non-null, holds a truthy `token` and
`data.expiry > Date.now()`; every error is caught and yields `null`. -/
def getStoredToken (now : Int) (g : BlobGetOutcome) : Option StoredRec :=
  match g with
  | .netError _ => none
  | .noData => none
  | .value v =>
      if truthyStr v.token && jsLt (some now) v.expiry then some v else none

/-- `storeToken` (src/unnamed/part_001 lines 27–35): best-effort blob write;
any error is caught and logged, so the call never throws. -/
def storeToken (w : Except String Unit) : Except JsError Unit :=
  match w with
  | .ok _ => .ok ()
  | .error _ => .ok ()

/-- The blob freshness test `stored && now < stored.expiry - 300000`
(src/unnamed/part_001 line 47). -/
def blobFresh (now : Int) (stored : Option StoredRec) : Bool :=
  match stored with
  | some s => jsLt (some now) (jsSub s.expiry 300000)
  | none => false

/-- The `catch` block of `getAccessToken` (src/unnamed/part_001 lines 93–103):
fall back to the in-memory token within the one-hour grace window, else to the
blob record when `now < stored.expiry + 3600000`, else rethrow. -/
def tokenCatch (now : Int) (stored : Option StoredRec) (cache : LocalCache)
    (e : JsError) : Except JsError (Option String) :=
  if truthyStr cache.cachedToken && jsLt (some now) (jsAdd cache.tokenExpiry 3600000) then
    .ok cache.cachedToken
  else
    match stored with
    | some s => if jsLt (some now) (jsAdd s.expiry 3600000) then .ok s.token else .error e
    | none => .error e

/-- `getAccessToken` (src/unnamed/part_001 lines 37–105): local cache check,
blob-store check with promotion, remote fetch with up to three retries on 429
(`Retry-After` or `2^(retryCount+1)` seconds), caching (without an
`access_token` presence check), and the stale-token fallback in the catch. -/
def getAccessToken (env : BlobEnv) (cache : LocalCache) (retryCount : Nat) : RunResult :=
  let now := env.now
  if GetAvailability.localFresh now cache then
    ⟨.ok cache.cachedToken, cache, []⟩
  else
    let stored := getStoredToken now env.blobGet
    if blobFresh now stored then
      let s := stored.getD ⟨none, none⟩
      ⟨.ok s.token, ⟨s.token, s.expiry⟩, [.storeRead]⟩
    else
      match env.fetches retryCount with
      | .netError m =>
          ⟨tokenCatch now stored cache (.netError m), cache, [.storeRead, .tokenFetch]⟩
      | .success r =>
          if h : r.status = 429 ∧ retryCount < 3 then
            let waitTime : Int :=
              (match r.retryAfter with
               | some a => a
               | none => (2 : Int) ^ (retryCount + 1) : Int) * 1000
            let inner := getAccessToken env cache (retryCount + 1)
            ⟨(match inner.result with
              | .ok v => .ok v
              | .error e => tokenCatch now stored inner.cache e),
             inner.cache,
             .storeRead :: .tokenFetch :: .sleep waitTime :: inner.effects⟩
          else if !responseOk r.status then
            ⟨tokenCatch now stored cache (.tokenFailed r.status r.bodyText), cache,
             [.storeRead, .tokenFetch]⟩
          else if !r.jsonOk then
            ⟨tokenCatch now stored cache .jsonError, cache, [.storeRead, .tokenFetch]⟩
          else
            let newExpiry := newExpiryOf now r.expires_in
            let cache2 : LocalCache := ⟨r.access_token, newExpiry⟩
            match storeToken env.blobSet with
            | .ok _ =>
                ⟨.ok r.access_token, cache2,
                 [.storeRead, .tokenFetch, .storeWrite r.access_token newExpiry]⟩
            | .error e =>
                ⟨tokenCatch now stored cache2 e, cache2,
                 [.storeRead, .tokenFetch, .storeWrite r.access_token newExpiry]⟩
termination_by 3 - retryCount
decreasing_by
  exact Nat.sub_lt_sub_left h.2 (Nat.lt_succ_self retryCount)

end Part001

namespace Part000

/-- The module-level `tokenCache = { token, expiresAt }` of src/unnamed/part_000. -/
structure TokenCache where
  token : Option String
  expiresAt : JsNum
deriving Repr, DecidableEq

/-- `getAccessToken` (src/unnamed/part_000 lines 7–39): in-memory cache with
a five-minute buffer, a single fetch (no retry, no catch), a `response.ok`
check throwing `Token request failed: <status>`, and caching of the
response's `access_token` field without checking that it is present. -/
def getAccessToken (env : BasicEnv) (cache : TokenCache) :
    Except JsError (Option String) × TokenCache × List Effect :=
  if truthyStr cache.token && jsLt (some env.now) (jsSub cache.expiresAt 300000) then
    (.ok cache.token, cache, [])
  else
    match env.fetch0 with
    | .netError m => (.error (.netError m), cache, [.tokenFetch])
    | .success r =>
        if !responseOk r.status then
          (.error (.requestFailed r.status), cache, [.tokenFetch])
        else if !r.jsonOk then
          (.error .jsonError, cache, [.tokenFetch])
        else
          (.ok r.access_token,
           ⟨r.access_token, newExpiryOf env.now r.expires_in⟩, [.tokenFetch])

end Part000

namespace Part002

/-- `getAccessToken` (src/unnamed/part_002 lines 3–16): a bare fetch with no
cache, no status check and no `access_token` check; it parses the body and
returns whatever `access_token` field it holds (`undefined` when absent). -/
def getAccessToken (env : BasicEnv) :
    Except JsError (Option String) × List Effect :=
  match env.fetch0 with
  | .netError m => (.error (.netError m), [.tokenFetch])
  | .success r =>
      if !r.jsonOk then (.error .jsonError, [.tokenFetch])
      else (.ok r.access_token, [.tokenFetch])

end Part002

namespace GetQuote

/-- The in-memory freshness test `cachedToken && now < tokenExpiry - 3600000`
(get-quote.js line 10; this variant uses a one-hour buffer). -/
def localFresh (now : Int) (cache : LocalCache) : Bool :=
  truthyStr cache.cachedToken && jsLt (some now) (jsSub cache.tokenExpiry 3600000)

/-- `getAccessToken` (get-quote.js lines 7–37): in-memory cache with a
one-hour buffer, a single fetch (no retry, no catch, no store), a
`response.ok` check throwing `Token failed: <status> - <text>`, and caching
of the `access_token` field without checking that it is present. -/
def getAccessToken (env : BasicEnv) (cache : LocalCache) : RunResult :=
  if localFresh env.now cache then
    ⟨.ok cache.cachedToken, cache, []⟩
  else
    match env.fetch0 with
    | .netError m => ⟨.error (.netError m), cache, [.tokenFetch]⟩
    | .success r =>
        if !responseOk r.status then
          ⟨.error (.tokenFailed r.status r.bodyText), cache, [.tokenFetch]⟩
        else if !r.jsonOk then
          ⟨.error .jsonError, cache, [.tokenFetch]⟩
        else
          ⟨.ok r.access_token,
           ⟨r.access_token, newExpiryOf env.now r.expires_in⟩, [.tokenFetch]⟩

end GetQuote

/-- The record seen by the Redis tier of `getAccessToken` (the value of its
local `stored` binding in get-availability.js / part_003). -/
def storedOf (env : Env) : Option StoredRec :=
  GetAvailability.getFromRedis env.storeConfigured env.storeGet

/-- The record seen by the blob tier of `getAccessToken` in part_001. -/
def blobStoredOf (env : BlobEnv) : Option StoredRec :=
  Part001.getStoredToken env.now env.blobGet

/-- The guard of the in-memory fallback in the catch blocks:
`cachedToken && now < tokenExpiry + 3600000`. -/
def localGrace (now : Int) (cache : LocalCache) : Bool :=
  truthyStr cache.cachedToken && jsLt (some now) (jsAdd cache.tokenExpiry 3600000)

/-- Whether the stored record is non-null and holds a truthy `token` field. -/
def storedTokenTruthy : Option StoredRec → Bool
  | some s => truthyStr s.token
  | none => false

/-- Every durable token is past the grace window: the record is absent or
`now < expiry + 3600000` fails. -/
def storedBeyondGrace (now : Int) : Option StoredRec → Bool
  | some s => !jsLt (some now) (jsAdd s.expiry 3600000)
  | none => true

/-- An attempt outcome that cannot yield a token in the get-availability.js
variant: the fetch rejects, or the response is a 429, a non-2xx, an
unparsable body, or a 2xx body without a truthy `access_token`. -/
def failedAttempt (o : FetchOutcome) : Bool :=
  match o with
  | .netError _ => true
  | .success r =>
      r.status == 429 || !responseOk r.status || !r.jsonOk || !truthyStr r.access_token

/-- An attempt outcome that throws or rate-limits in the variants without an
`access_token` presence check (part_001, part_003); a 2xx JSON body counts as
a success there even when the token field is absent. -/
def failedAttemptNT (o : FetchOutcome) : Bool :=
  match o with
  | .netError _ => true
  | .success r => r.status == 429 || !responseOk r.status || !r.jsonOk

/-! ## Basic lemmas about the JS value model -/

theorem jsLt_some_some (x y : Int) : jsLt (some x) (some y) = decide (x < y) := rfl

theorem jsLt_nan_r (x : JsNum) : jsLt x none = false := by cases x <;> rfl

theorem jsSub_some (x k : Int) : jsSub (some x) k = some (x - k) := rfl

theorem jsSub_nan (k : Int) : jsSub none k = none := rfl

theorem jsAdd_some (x k : Int) : jsAdd (some x) k = some (x + k) := rfl

theorem jsAdd_nan (k : Int) : jsAdd none k = none := rfl

/-- `setInRedis` never throws: every write outcome is absorbed. -/
theorem setInRedis_ok (cfg : Bool) (w : Except String Unit) :
    GetAvailability.setInRedis cfg w = .ok () := by
  unfold GetAvailability.setInRedis
  cases cfg <;> cases w <;> rfl

/-- `storeToken` never throws: every write outcome is absorbed. -/
theorem storeToken_ok (w : Except String Unit) : Part001.storeToken w = .ok () := by
  unfold Part001.storeToken
  cases w <;> rfl

/-- A token outside the grace window is in particular not fresh. -/
theorem localFresh_false_of_grace (now : Int) (cache : LocalCache)
    (h : localGrace now cache = false) :
    GetAvailability.localFresh now cache = false := by
  unfold localGrace at h
  unfold GetAvailability.localFresh
  cases htok : truthyStr cache.cachedToken with
  | false => simp [htok]
  | true =>
    rw [htok] at h
    simp only [Bool.true_and] at h ⊢
    cases hexp : cache.tokenExpiry with
    | none => simp [jsSub_nan, jsLt_nan_r]
    | some x =>
      rw [hexp] at h
      rw [jsSub_some, jsLt_some_some]
      rw [jsAdd_some, jsLt_some_some] at h
      simp only [decide_eq_false_iff_not, not_lt] at h ⊢
      omega

/-- A durable record past the grace window never passes the Redis
freshness test. -/
theorem redisFresh_false_of_beyond (now : Int) (stored : Option StoredRec)
    (h : storedBeyondGrace now stored = true) :
    GetAvailability.redisFresh now stored = false := by
  cases stored with
  | none => rfl
  | some s =>
    simp only [storedBeyondGrace] at h
    simp only [GetAvailability.redisFresh]
    cases hexp : s.expiry with
    | none => simp [jsSub_nan, jsLt_nan_r]
    | some x =>
      rw [hexp, jsAdd_some, jsLt_some_some] at h
      rw [jsSub_some, jsLt_some_some]
      simp only [Bool.not_eq_true', decide_eq_false_iff_not, not_lt] at h
      simp only [Bool.and_eq_false_iff, decide_eq_false_iff_not, not_lt]
      right
      omega

/-- A durable record past the grace window never passes the blob
freshness test. -/
theorem blobFresh_false_of_beyond (now : Int) (stored : Option StoredRec)
    (h : storedBeyondGrace now stored = true) :
    Part001.blobFresh now stored = false := by
  cases stored with
  | none => rfl
  | some s =>
    simp only [storedBeyondGrace] at h
    simp only [Part001.blobFresh]
    cases hexp : s.expiry with
    | none => simp [jsSub_nan, jsLt_nan_r]
    | some x =>
      rw [hexp, jsAdd_some, jsLt_some_some] at h
      rw [jsSub_some, jsLt_some_some]
      simp only [Bool.not_eq_true', decide_eq_false_iff_not, not_lt] at h
      simp only [decide_eq_false_iff_not, not_lt]
      omega

/-- The get-availability / part_003 catch block under a failed in-memory
fallback and a token-less stored record rethrows. -/
theorem tokenCatch_error (now : Int) (stored : Option StoredRec)
    (cache : LocalCache) (e : JsError)
    (hg : localGrace now cache = false)
    (hs : storedTokenTruthy stored = false) :
    GetAvailability.tokenCatch now stored cache e = .error e := by
  unfold GetAvailability.tokenCatch
  unfold localGrace at hg
  rw [hg]
  cases stored with
  | none => rfl
  | some s =>
    simp only [storedTokenTruthy] at hs
    simp [hs]

/-- The get-availability / part_003 catch block returns the in-memory token
whenever it is within the grace window. -/
theorem tokenCatch_grace (now : Int) (stored : Option StoredRec)
    (cache : LocalCache) (e : JsError)
    (hg : localGrace now cache = true) :
    GetAvailability.tokenCatch now stored cache e = .ok cache.cachedToken := by
  unfold GetAvailability.tokenCatch
  unfold localGrace at hg
  rw [hg]
  rfl

/-- The get-availability / part_003 catch block falls back to the stored
record's token — with no expiry check — when the in-memory fallback fails. -/
theorem tokenCatch_stored (now : Int) (s : StoredRec)
    (cache : LocalCache) (e : JsError)
    (hg : localGrace now cache = false)
    (ht : truthyStr s.token = true) :
    GetAvailability.tokenCatch now (some s) cache e = .ok s.token := by
  unfold GetAvailability.tokenCatch
  unfold localGrace at hg
  rw [hg]
  simp [ht]

/-- The part_001 catch block returns the in-memory token whenever it is
within the grace window. -/
theorem p1Catch_grace (now : Int) (stored : Option StoredRec)
    (cache : LocalCache) (e : JsError)
    (hg : localGrace now cache = true) :
    Part001.tokenCatch now stored cache e = .ok cache.cachedToken := by
  unfold Part001.tokenCatch
  unfold localGrace at hg
  rw [hg]
  rfl

/-- The part_001 catch block falls back to the stored record's token when
the record is within the grace window. -/
theorem p1Catch_stored (now : Int) (s : StoredRec)
    (cache : LocalCache) (e : JsError)
    (hg : localGrace now cache = false)
    (hw : jsLt (some now) (jsAdd s.expiry 3600000) = true) :
    Part001.tokenCatch now (some s) cache e = .ok s.token := by
  unfold Part001.tokenCatch
  unfold localGrace at hg
  rw [hg]
  simp [hw]

/-- The part_001 catch block rethrows when the in-memory fallback fails and
the stored record is absent or past the grace window. -/
theorem p1Catch_error (now : Int) (stored : Option StoredRec)
    (cache : LocalCache) (e : JsError)
    (hg : localGrace now cache = false)
    (hs : storedBeyondGrace now stored = true) :
    Part001.tokenCatch now stored cache e = .error e := by
  unfold Part001.tokenCatch
  unfold localGrace at hg
  rw [hg]
  cases stored with
  | none => rfl
  | some s =>
    simp only [storedBeyondGrace, Bool.not_eq_true'] at hs
    simp [hs]

/-- One non-retrying step of the get-availability `getAccessToken`: when both
cache tiers miss and the current attempt fails without triggering a retry,
the run ends in the catch block with the cache unchanged. -/
theorem avail_noRetry (env : Env) (cache : LocalCache) (rc : Nat)
    (hl : GetAvailability.localFresh env.now cache = false)
    (hr : GetAvailability.redisFresh env.now (storedOf env) = false)
    (hfail : failedAttempt (env.fetches rc) = true)
    (hnoretry : ∀ r, env.fetches rc = .success r → ¬(r.status = 429 ∧ rc < 3)) :
    ∃ e, (GetAvailability.getAccessToken env cache rc).result
          = GetAvailability.tokenCatch env.now (storedOf env) cache e ∧
        (GetAvailability.getAccessToken env cache rc).cache = cache := by
  have hr' : GetAvailability.redisFresh env.now
      (GetAvailability.getFromRedis env.storeConfigured env.storeGet) = false := hr
  rw [GetAvailability.getAccessToken]
  simp only [storedOf]
  simp only [hl, hr', Bool.false_eq_true, if_false]
  cases hfetch : env.fetches rc with
  | netError m =>
      exact ⟨.netError m, rfl, rfl⟩
  | success r =>
      rw [hfetch] at hfail
      simp only [failedAttempt] at hfail
      have hnr := hnoretry r hfetch
      dsimp only
      rw [dif_neg hnr]
      by_cases hok : responseOk r.status = true
      · have h429 : r.status ≠ 429 := by
          intro hx
          rw [hx] at hok
          exact absurd hok (by decide)
        by_cases hj : r.jsonOk = true
        · by_cases ht : truthyStr r.access_token = true
          · exfalso
            simp [hok, hj, ht, h429] at hfail
          · have ht' : truthyStr r.access_token = false := by
              simpa using ht
            simp only [hok, hj, ht', Bool.not_true, Bool.not_false, Bool.false_eq_true,
              if_false, if_true]
            exact ⟨.noToken r.bodyText, by first | rfl | trivial, by first | rfl | trivial⟩
        · have hj' : r.jsonOk = false := by simpa using hj
          simp only [hok, hj', Bool.not_true, Bool.not_false, Bool.false_eq_true,
            if_false, if_true]
          exact ⟨.jsonError, by first | rfl | trivial, by first | rfl | trivial⟩
      · have hok' : responseOk r.status = false := by simpa using hok
        simp only [hok', Bool.not_false, if_true]
        exact ⟨.tokenFailed r.status r.bodyText, by first | rfl | trivial, by first | rfl | trivial⟩

/-- If every remote attempt fails, the get-availability `getAccessToken`
ends in its catch block with the local cache unchanged, whatever the retry
counter. -/
theorem avail_allFail (env : Env) (cache : LocalCache)
    (hall : ∀ k, failedAttempt (env.fetches k) = true)
    (hl : GetAvailability.localFresh env.now cache = false)
    (hr : GetAvailability.redisFresh env.now (storedOf env) = false) :
    ∀ n rc, 3 - rc ≤ n →
      ∃ e, (GetAvailability.getAccessToken env cache rc).result
            = GetAvailability.tokenCatch env.now (storedOf env) cache e ∧
          (GetAvailability.getAccessToken env cache rc).cache = cache := by
  have hr' : GetAvailability.redisFresh env.now
      (GetAvailability.getFromRedis env.storeConfigured env.storeGet) = false := hr
  intro n
  induction n with
  | zero =>
      intro rc hrc
      apply avail_noRetry env cache rc hl hr (hall rc)
      intro r _ hcontra
      omega
  | succ n ih =>
      intro rc hrc
      by_cases hcase : ∃ r, env.fetches rc = .success r ∧ r.status = 429 ∧ rc < 3
      · obtain ⟨r, hfr, h429, hlt⟩ := hcase
        rw [GetAvailability.getAccessToken]
        simp only [storedOf]
        simp only [hl, hr', Bool.false_eq_true, if_false, hfr]
        rw [dif_pos ⟨h429, hlt⟩]
        obtain ⟨e1, hres, hcache⟩ := ih (rc + 1) (by omega)
        simp only [storedOf] at hres
        cases hx : (GetAvailability.getAccessToken env cache (rc + 1)).result with
        | ok v =>
            refine ⟨e1, ?_, ?_⟩
            · simp only [hx]
              rw [← hres, hx]
            · simpa using hcache
        | error e2 =>
            refine ⟨e2, ?_, ?_⟩
            · simp only [hx]
              rw [hcache]
            · simpa using hcache
      · apply avail_noRetry env cache rc hl hr (hall rc)
        intro r hfr hcontra
        exact hcase ⟨r, hfr, hcontra⟩

/-- One non-retrying step of the part_003 `getAccessToken`: when both cache
tiers miss and the current attempt throws without triggering a retry, the run
ends in the catch block with the cache unchanged. -/
theorem p3_noRetry (env : Env) (cache : LocalCache) (rc : Nat)
    (hl : GetAvailability.localFresh env.now cache = false)
    (hr : GetAvailability.redisFresh env.now (storedOf env) = false)
    (hfail : failedAttemptNT (env.fetches rc) = true)
    (hnoretry : ∀ r, env.fetches rc = .success r → ¬(r.status = 429 ∧ rc < 3)) :
    ∃ e, (Part003.getAccessToken env cache rc).result
          = GetAvailability.tokenCatch env.now (storedOf env) cache e ∧
        (Part003.getAccessToken env cache rc).cache = cache := by
  have hr' : GetAvailability.redisFresh env.now
      (GetAvailability.getFromRedis env.storeConfigured env.storeGet) = false := hr
  rw [Part003.getAccessToken]
  simp only [storedOf]
  simp only [hl, hr', Bool.false_eq_true, if_false]
  cases hfetch : env.fetches rc with
  | netError m =>
      exact ⟨.netError m, rfl, rfl⟩
  | success r =>
      rw [hfetch] at hfail
      simp only [failedAttemptNT] at hfail
      have hnr := hnoretry r hfetch
      dsimp only
      rw [dif_neg hnr]
      by_cases hok : responseOk r.status = true
      · have h429 : r.status ≠ 429 := by
          intro hx
          rw [hx] at hok
          exact absurd hok (by decide)
        by_cases hj : r.jsonOk = true
        · exfalso
          simp [hok, hj, h429] at hfail
        · have hj' : r.jsonOk = false := by simpa using hj
          simp only [hok, hj', Bool.not_true, Bool.not_false, Bool.false_eq_true,
            if_false, if_true]
          exact ⟨.jsonError, by first | rfl | trivial, by first | rfl | trivial⟩
      · have hok' : responseOk r.status = false := by simpa using hok
        simp only [hok', Bool.not_false, if_true]
        exact ⟨.tokenFailed r.status r.bodyText, by first | rfl | trivial,
          by first | rfl | trivial⟩

/-- If every remote attempt throws or rate-limits, the part_003
`getAccessToken` ends in its catch block with the local cache unchanged. -/
theorem p3_allFail (env : Env) (cache : LocalCache)
    (hall : ∀ k, failedAttemptNT (env.fetches k) = true)
    (hl : GetAvailability.localFresh env.now cache = false)
    (hr : GetAvailability.redisFresh env.now (storedOf env) = false) :
    ∀ n rc, 3 - rc ≤ n →
      ∃ e, (Part003.getAccessToken env cache rc).result
            = GetAvailability.tokenCatch env.now (storedOf env) cache e ∧
          (Part003.getAccessToken env cache rc).cache = cache := by
  have hr' : GetAvailability.redisFresh env.now
      (GetAvailability.getFromRedis env.storeConfigured env.storeGet) = false := hr
  intro n
  induction n with
  | zero =>
      intro rc hrc
      apply p3_noRetry env cache rc hl hr (hall rc)
      intro r _ hcontra
      omega
  | succ n ih =>
      intro rc hrc
      by_cases hcase : ∃ r, env.fetches rc = .success r ∧ r.status = 429 ∧ rc < 3
      · obtain ⟨r, hfr, h429, hlt⟩ := hcase
        rw [Part003.getAccessToken]
        simp only [storedOf]
        simp only [hl, hr', Bool.false_eq_true, if_false, hfr]
        rw [dif_pos ⟨h429, hlt⟩]
        obtain ⟨e1, hres, hcache⟩ := ih (rc + 1) (by omega)
        simp only [storedOf] at hres
        cases hx : (Part003.getAccessToken env cache (rc + 1)).result with
        | ok v =>
            refine ⟨e1, ?_, ?_⟩
            · simp only [hx]
              rw [← hres, hx]
            · simpa using hcache
        | error e2 =>
            refine ⟨e2, ?_, ?_⟩
            · simp only [hx]
              rw [hcache]
            · simpa using hcache
      · apply p3_noRetry env cache rc hl hr (hall rc)
        intro r hfr hcontra
        exact hcase ⟨r, hfr, hcontra⟩

/-- One non-retrying step of the part_001 `getAccessToken`: when both cache
tiers miss and the current attempt throws without triggering a retry, the run
ends in the catch block with the cache unchanged. -/
theorem p1_noRetry (env : BlobEnv) (cache : LocalCache) (rc : Nat)
    (hl : GetAvailability.localFresh env.now cache = false)
    (hb : Part001.blobFresh env.now (blobStoredOf env) = false)
    (hfail : failedAttemptNT (env.fetches rc) = true)
    (hnoretry : ∀ r, env.fetches rc = .success r → ¬(r.status = 429 ∧ rc < 3)) :
    ∃ e, (Part001.getAccessToken env cache rc).result
          = Part001.tokenCatch env.now (blobStoredOf env) cache e ∧
        (Part001.getAccessToken env cache rc).cache = cache := by
  have hb' : Part001.blobFresh env.now
      (Part001.getStoredToken env.now env.blobGet) = false := hb
  rw [Part001.getAccessToken]
  simp only [blobStoredOf]
  simp only [hl, hb', Bool.false_eq_true, if_false]
  cases hfetch : env.fetches rc with
  | netError m =>
      exact ⟨.netError m, rfl, rfl⟩
  | success r =>
      rw [hfetch] at hfail
      simp only [failedAttemptNT] at hfail
      have hnr := hnoretry r hfetch
      dsimp only
      rw [dif_neg hnr]
      by_cases hok : responseOk r.status = true
      · have h429 : r.status ≠ 429 := by
          intro hx
          rw [hx] at hok
          exact absurd hok (by decide)
        by_cases hj : r.jsonOk = true
        · exfalso
          simp [hok, hj, h429] at hfail
        · have hj' : r.jsonOk = false := by simpa using hj
          simp only [hok, hj', Bool.not_true, Bool.not_false, Bool.false_eq_true,
            if_false, if_true]
          exact ⟨.jsonError, by first | rfl | trivial, by first | rfl | trivial⟩
      · have hok' : responseOk r.status = false := by simpa using hok
        simp only [hok', Bool.not_false, if_true]
        exact ⟨.tokenFailed r.status r.bodyText, by first | rfl | trivial,
          by first | rfl | trivial⟩

/-- If every remote attempt throws or rate-limits, the part_001
`getAccessToken` ends in its catch block with the local cache unchanged. -/
theorem p1_allFail (env : BlobEnv) (cache : LocalCache)
    (hall : ∀ k, failedAttemptNT (env.fetches k) = true)
    (hl : GetAvailability.localFresh env.now cache = false)
    (hb : Part001.blobFresh env.now (blobStoredOf env) = false) :
    ∀ n rc, 3 - rc ≤ n →
      ∃ e, (Part001.getAccessToken env cache rc).result
            = Part001.tokenCatch env.now (blobStoredOf env) cache e ∧
          (Part001.getAccessToken env cache rc).cache = cache := by
  have hb' : Part001.blobFresh env.now
      (Part001.getStoredToken env.now env.blobGet) = false := hb
  intro n
  induction n with
  | zero =>
      intro rc hrc
      apply p1_noRetry env cache rc hl hb (hall rc)
      intro r _ hcontra
      omega
  | succ n ih =>
      intro rc hrc
      by_cases hcase : ∃ r, env.fetches rc = .success r ∧ r.status = 429 ∧ rc < 3
      · obtain ⟨r, hfr, h429, hlt⟩ := hcase
        rw [Part001.getAccessToken]
        simp only [blobStoredOf]
        simp only [hl, hb', Bool.false_eq_true, if_false, hfr]
        rw [dif_pos ⟨h429, hlt⟩]
        obtain ⟨e1, hres, hcache⟩ := ih (rc + 1) (by omega)
        simp only [blobStoredOf] at hres
        cases hx : (Part001.getAccessToken env cache (rc + 1)).result with
        | ok v =>
            refine ⟨e1, ?_, ?_⟩
            · simp only [hx]
              rw [← hres, hx]
            · simpa using hcache
        | error e2 =>
            refine ⟨e2, ?_, ?_⟩
            · simp only [hx]
              rw [hcache]
            · simpa using hcache
      · apply p1_noRetry env cache rc hl hb (hall rc)
        intro r hfr hcontra
        exact hcase ⟨r, hfr, hcontra⟩

theorem fetchCount_nil : fetchCount [] = 0 := rfl

theorem fetchCount_storeRead (l : List Effect) :
    fetchCount (.storeRead :: l) = fetchCount l := by
  simp [fetchCount, List.countP_cons]

theorem fetchCount_tokenFetch (l : List Effect) :
    fetchCount (.tokenFetch :: l) = fetchCount l + 1 := by
  simp [fetchCount, List.countP_cons]

theorem fetchCount_sleep (w : Int) (l : List Effect) :
    fetchCount (.sleep w :: l) = fetchCount l := by
  simp [fetchCount, List.countP_cons]

/-- The number of credential-endpoint requests of one get-availability
`getAccessToken` call is bounded by the remaining retry budget plus one. -/
theorem avail_fetchCount_le (env : Env) (cache : LocalCache) :
    ∀ n rc, 3 - rc ≤ n →
      fetchCount (GetAvailability.getAccessToken env cache rc).effects ≤ n + 1 := by
  intro n
  induction n with
  | zero =>
      intro rc hrc
      rw [GetAvailability.getAccessToken]
      by_cases hl : GetAvailability.localFresh env.now cache = true
      · simp [hl, fetchCount]
      · have hl' : GetAvailability.localFresh env.now cache = false := by simpa using hl
        by_cases hrf : GetAvailability.redisFresh env.now
            (GetAvailability.getFromRedis env.storeConfigured env.storeGet) = true
        · simp [hl', hrf, fetchCount]
        · have hrf' : GetAvailability.redisFresh env.now
              (GetAvailability.getFromRedis env.storeConfigured env.storeGet) = false := by
            simpa using hrf
          simp only [hl', hrf', Bool.false_eq_true, if_false]
          cases hfetch : env.fetches rc with
          | netError m =>
              simp [fetchCount, List.countP_cons]
          | success r =>
              have hnr : ¬(r.status = 429 ∧ rc < 3) := fun hx => by omega
              dsimp only
              rw [dif_neg hnr]
              rw [setInRedis_ok]
              split
              · simp [fetchCount, List.countP_cons]
              · split
                · simp [fetchCount, List.countP_cons]
                · split
                  · simp [fetchCount, List.countP_cons]
                  · simp [fetchCount, List.countP_cons]
  | succ n ih =>
      intro rc hrc
      rw [GetAvailability.getAccessToken]
      by_cases hl : GetAvailability.localFresh env.now cache = true
      · simp [hl, fetchCount]
      · have hl' : GetAvailability.localFresh env.now cache = false := by simpa using hl
        by_cases hrf : GetAvailability.redisFresh env.now
            (GetAvailability.getFromRedis env.storeConfigured env.storeGet) = true
        · simp [hl', hrf, fetchCount]
        · have hrf' : GetAvailability.redisFresh env.now
              (GetAvailability.getFromRedis env.storeConfigured env.storeGet) = false := by
            simpa using hrf
          simp only [hl', hrf', Bool.false_eq_true, if_false]
          cases hfetch : env.fetches rc with
          | netError m =>
              simp [fetchCount, List.countP_cons] <;> omega
          | success r =>
              dsimp only
              by_cases h429 : r.status = 429 ∧ rc < 3
              · rw [dif_pos h429]
                dsimp only
                rw [fetchCount_storeRead, fetchCount_tokenFetch]
                have hi := ih (rc + 1) (by omega)
                rw [fetchCount_sleep] at *
                omega
              · rw [dif_neg h429]
                rw [setInRedis_ok]
                split
                · simp [fetchCount, List.countP_cons] <;> omega
                · split
                  · simp [fetchCount, List.countP_cons] <;> omega
                  · split
                    · simp [fetchCount, List.countP_cons] <;> omega
                    · simp [fetchCount, List.countP_cons] <;> omega

/-- The number of credential-endpoint requests of one part_003
`getAccessToken` call is bounded by the remaining retry budget plus one. -/
theorem p3_fetchCount_le (env : Env) (cache : LocalCache) :
    ∀ n rc, 3 - rc ≤ n →
      fetchCount (Part003.getAccessToken env cache rc).effects ≤ n + 1 := by
  intro n
  induction n with
  | zero =>
      intro rc hrc
      rw [Part003.getAccessToken]
      by_cases hl : GetAvailability.localFresh env.now cache = true
      · simp [hl, fetchCount]
      · have hl' : GetAvailability.localFresh env.now cache = false := by simpa using hl
        by_cases hrf : GetAvailability.redisFresh env.now
            (GetAvailability.getFromRedis env.storeConfigured env.storeGet) = true
        · simp [hl', hrf, fetchCount]
        · have hrf' : GetAvailability.redisFresh env.now
              (GetAvailability.getFromRedis env.storeConfigured env.storeGet) = false := by
            simpa using hrf
          simp only [hl', hrf', Bool.false_eq_true, if_false]
          cases hfetch : env.fetches rc with
          | netError m =>
              simp [fetchCount, List.countP_cons]
          | success r =>
              have hnr : ¬(r.status = 429 ∧ rc < 3) := fun hx => by omega
              dsimp only
              rw [dif_neg hnr]
              rw [setInRedis_ok]
              split
              · simp [fetchCount, List.countP_cons]
              · split
                · simp [fetchCount, List.countP_cons]
                · simp [fetchCount, List.countP_cons]
  | succ n ih =>
      intro rc hrc
      rw [Part003.getAccessToken]
      by_cases hl : GetAvailability.localFresh env.now cache = true
      · simp [hl, fetchCount]
      · have hl' : GetAvailability.localFresh env.now cache = false := by simpa using hl
        by_cases hrf : GetAvailability.redisFresh env.now
            (GetAvailability.getFromRedis env.storeConfigured env.storeGet) = true
        · simp [hl', hrf, fetchCount]
        · have hrf' : GetAvailability.redisFresh env.now
              (GetAvailability.getFromRedis env.storeConfigured env.storeGet) = false := by
            simpa using hrf
          simp only [hl', hrf', Bool.false_eq_true, if_false]
          cases hfetch : env.fetches rc with
          | netError m =>
              simp [fetchCount, List.countP_cons] <;> omega
          | success r =>
              dsimp only
              by_cases h429 : r.status = 429 ∧ rc < 3
              · rw [dif_pos h429]
                dsimp only
                rw [fetchCount_storeRead, fetchCount_tokenFetch]
                have hi := ih (rc + 1) (by omega)
                rw [fetchCount_sleep] at *
                omega
              · rw [dif_neg h429]
                rw [setInRedis_ok]
                split
                · simp [fetchCount, List.countP_cons] <;> omega
                · split
                  · simp [fetchCount, List.countP_cons] <;> omega
                  · simp [fetchCount, List.countP_cons] <;> omega

/-- If a get-availability `getAccessToken` call throws, the local cache
variables end with exactly the values they held at entry. -/
theorem avail_cacheOnError (env : Env) (cache : LocalCache) :
    ∀ n rc, 3 - rc ≤ n → ∀ e,
      (GetAvailability.getAccessToken env cache rc).result = .error e →
      (GetAvailability.getAccessToken env cache rc).cache = cache := by
  intro n
  induction n with
  | zero =>
      intro rc hrc e herr
      rw [GetAvailability.getAccessToken] at herr ⊢
      by_cases hl : GetAvailability.localFresh env.now cache = true
      · simp [hl] at herr
      · have hl' : GetAvailability.localFresh env.now cache = false := by simpa using hl
        by_cases hrf : GetAvailability.redisFresh env.now
            (GetAvailability.getFromRedis env.storeConfigured env.storeGet) = true
        · simp [hl', hrf] at herr
        · have hrf' : GetAvailability.redisFresh env.now
              (GetAvailability.getFromRedis env.storeConfigured env.storeGet) = false := by
            simpa using hrf
          simp only [hl', hrf', Bool.false_eq_true, if_false] at herr ⊢
          cases hfetch : env.fetches rc with
          | netError m => rfl
          | success r =>
              have hnr : ¬(r.status = 429 ∧ rc < 3) := fun hx => by omega
              rw [hfetch] at herr
              dsimp only at herr ⊢
              rw [dif_neg hnr] at herr ⊢
              rw [setInRedis_ok] at herr ⊢
              cases hok2 : (!responseOk r.status) with
              | true => simp
              | false =>
                  cases hj2 : (!r.jsonOk) with
                  | true => simp
                  | false =>
                      cases ht2 : (!truthyStr r.access_token) with
                      | true => simp
                      | false => simp [hok2, hj2, ht2] at herr
  | succ n ih =>
      intro rc hrc e herr
      rw [GetAvailability.getAccessToken] at herr ⊢
      by_cases hl : GetAvailability.localFresh env.now cache = true
      · simp [hl] at herr
      · have hl' : GetAvailability.localFresh env.now cache = false := by simpa using hl
        by_cases hrf : GetAvailability.redisFresh env.now
            (GetAvailability.getFromRedis env.storeConfigured env.storeGet) = true
        · simp [hl', hrf] at herr
        · have hrf' : GetAvailability.redisFresh env.now
              (GetAvailability.getFromRedis env.storeConfigured env.storeGet) = false := by
            simpa using hrf
          simp only [hl', hrf', Bool.false_eq_true, if_false] at herr ⊢
          cases hfetch : env.fetches rc with
          | netError m => rfl
          | success r =>
              rw [hfetch] at herr
              dsimp only at herr ⊢
              by_cases h429 : r.status = 429 ∧ rc < 3
              · rw [dif_pos h429] at herr ⊢
                dsimp only at herr ⊢
                cases hi : (GetAvailability.getAccessToken env cache (rc + 1)).result with
                | ok v => rw [hi] at herr; simp at herr
                | error e1 => exact ih (rc + 1) (by omega) e1 hi
              · rw [dif_neg h429] at herr ⊢
                rw [setInRedis_ok] at herr ⊢
                cases hok2 : (!responseOk r.status) with
                | true => simp
                | false =>
                    cases hj2 : (!r.jsonOk) with
                    | true => simp
                    | false =>
                        cases ht2 : (!truthyStr r.access_token) with
                        | true => simp
                        | false => simp [hok2, hj2, ht2] at herr

/-- If a part_001 `getAccessToken` call throws, the local cache variables
end with exactly the values they held at entry. -/
theorem p1_cacheOnError (env : BlobEnv) (cache : LocalCache) :
    ∀ n rc, 3 - rc ≤ n → ∀ e,
      (Part001.getAccessToken env cache rc).result = .error e →
      (Part001.getAccessToken env cache rc).cache = cache := by
  intro n
  induction n with
  | zero =>
      intro rc hrc e herr
      rw [Part001.getAccessToken] at herr ⊢
      by_cases hl : GetAvailability.localFresh env.now cache = true
      · simp [hl] at herr
      · have hl' : GetAvailability.localFresh env.now cache = false := by simpa using hl
        by_cases hbf : Part001.blobFresh env.now
            (Part001.getStoredToken env.now env.blobGet) = true
        · simp [hl', hbf] at herr
        · have hbf' : Part001.blobFresh env.now
              (Part001.getStoredToken env.now env.blobGet) = false := by simpa using hbf
          simp only [hl', hbf', Bool.false_eq_true, if_false] at herr ⊢
          cases hfetch : env.fetches rc with
          | netError m => rfl
          | success r =>
              have hnr : ¬(r.status = 429 ∧ rc < 3) := fun hx => by omega
              rw [hfetch] at herr
              dsimp only at herr ⊢
              rw [dif_neg hnr] at herr ⊢
              rw [storeToken_ok] at herr ⊢
              cases hok2 : (!responseOk r.status) with
              | true => simp
              | false =>
                  cases hj2 : (!r.jsonOk) with
                  | true => simp
                  | false => simp [hok2, hj2] at herr
  | succ n ih =>
      intro rc hrc e herr
      rw [Part001.getAccessToken] at herr ⊢
      by_cases hl : GetAvailability.localFresh env.now cache = true
      · simp [hl] at herr
      · have hl' : GetAvailability.localFresh env.now cache = false := by simpa using hl
        by_cases hbf : Part001.blobFresh env.now
            (Part001.getStoredToken env.now env.blobGet) = true
        · simp [hl', hbf] at herr
        · have hbf' : Part001.blobFresh env.now
              (Part001.getStoredToken env.now env.blobGet) = false := by simpa using hbf
          simp only [hl', hbf', Bool.false_eq_true, if_false] at herr ⊢
          cases hfetch : env.fetches rc with
          | netError m => rfl
          | success r =>
              rw [hfetch] at herr
              dsimp only at herr ⊢
              by_cases h429 : r.status = 429 ∧ rc < 3
              · rw [dif_pos h429] at herr ⊢
                dsimp only at herr ⊢
                cases hi : (Part001.getAccessToken env cache (rc + 1)).result with
                | ok v => rw [hi] at herr; simp at herr
                | error e1 => exact ih (rc + 1) (by omega) e1 hi
              · rw [dif_neg h429] at herr ⊢
                rw [storeToken_ok] at herr ⊢
                cases hok2 : (!responseOk r.status) with
                | true => simp
                | false =>
                    cases hj2 : (!r.jsonOk) with
                    | true => simp
                    | false => simp [hok2, hj2] at herr

/-! ## Claim theorems -/

/-- C3: while the process-local cache holds a token with
`now < expiresAt − margin` (margin 300000 ms in get-availability.js and
3600000 ms in get-quote.js), `getAccessToken` returns that cached token
immediately, leaves the cache untouched, and performs no network
interaction at all — neither a token fetch nor a durable-store access. -/
theorem C3_fresh_local_hit (env : Env) (benv : BasicEnv) (cache : LocalCache)
    (t : String) (ex : Int)
    (ht : cache.cachedToken = some t) (hne : t ≠ "")
    (hexp : cache.tokenExpiry = some ex)
    (ha : env.now < ex - 300000) (hq : benv.now < ex - 3600000) :
    GetAvailability.getAccessToken env cache 0 = ⟨.ok (some t), cache, []⟩ ∧
    GetQuote.getAccessToken benv cache = ⟨.ok (some t), cache, []⟩ := by
  have htr : truthyStr cache.cachedToken = true := by
    rw [ht]
    simp [truthyStr, hne]
  constructor
  · have hfresh : GetAvailability.localFresh env.now cache = true := by
      unfold GetAvailability.localFresh
      rw [htr, hexp, jsSub_some, jsLt_some_some]
      simpa using ha
    rw [GetAvailability.getAccessToken]
    simp [hfresh, ht]
  · have hfresh : GetQuote.localFresh benv.now cache = true := by
      unfold GetQuote.localFresh
      rw [htr, hexp, jsSub_some, jsLt_some_some]
      simpa using hq
    rw [GetQuote.getAccessToken]
    simp [hfresh, ht]

/-- Witness for C3: a fresh token in the local cache is returned with an
empty effect trace even though every network call would fail. -/
theorem C3_fresh_local_hit_witness :
    GetAvailability.getAccessToken
        ⟨0, false, .noResult, .ok (), fun _ => .netError "down"⟩
        ⟨some "tok", some 10000000⟩ 0
      = ⟨.ok (some "tok"), ⟨some "tok", some 10000000⟩, []⟩ ∧
    GetQuote.getAccessToken ⟨0, .netError "down"⟩ ⟨some "tok", some 10000000⟩
      = ⟨.ok (some "tok"), ⟨some "tok", some 10000000⟩, []⟩ :=
  C3_fresh_local_hit ⟨0, false, .noResult, .ok (), fun _ => .netError "down"⟩
    ⟨0, .netError "down"⟩ ⟨some "tok", some 10000000⟩ "tok" 10000000
    rfl (by decide) rfl (by decide) (by decide)

/-- C6: durable-store failures never escape the token manager: a Redis or
blob read error is absorbed into a cache miss (`null`), a write error is
absorbed into a unit result, and a call holding a valid local token returns
it whatever the store outcome records of the environment contain. -/
theorem C6_store_isolation (cfg : Bool) (m : String) (w : Except String Unit)
    (env : Env) (cache : LocalCache) (t : String) (ex : Int)
    (ht : cache.cachedToken = some t) (hne : t ≠ "")
    (hexp : cache.tokenExpiry = some ex) (hfresh : env.now < ex - 300000) :
    GetAvailability.getFromRedis cfg (.netError m) = none ∧
    GetAvailability.getFromRedis cfg .parseError = none ∧
    GetAvailability.setInRedis cfg w = .ok () ∧
    Part001.getStoredToken env.now (.netError m) = none ∧
    Part001.storeToken w = .ok () ∧
    (GetAvailability.getAccessToken env cache 0).result = .ok (some t) := by
  have htr : truthyStr cache.cachedToken = true := by
    rw [ht]
    simp [truthyStr, hne]
  refine ⟨?_, ?_, setInRedis_ok cfg w, rfl, storeToken_ok w, ?_⟩
  · unfold GetAvailability.getFromRedis
    cases cfg <;> rfl
  · unfold GetAvailability.getFromRedis
    cases cfg <;> rfl
  · have hfr : GetAvailability.localFresh env.now cache = true := by
      unfold GetAvailability.localFresh
      rw [htr, hexp, jsSub_some, jsLt_some_some]
      simpa using hfresh
    rw [GetAvailability.getAccessToken]
    simp [hfr, ht]

/-- Witness for C6: with the store read rejecting, the store write
rejecting, and the network down, a valid local token still comes back. -/
theorem C6_store_isolation_witness :
    GetAvailability.getFromRedis true (.netError "boom") = none ∧
    GetAvailability.getFromRedis true .parseError = none ∧
    GetAvailability.setInRedis true (.error "x") = .ok () ∧
    Part001.getStoredToken 0 (.netError "boom") = none ∧
    Part001.storeToken (.error "x") = .ok () ∧
    (GetAvailability.getAccessToken
        ⟨0, true, .netError "boom", .error "x", fun _ => .netError "down"⟩
        ⟨some "tok", some 10000000⟩ 0).result = .ok (some "tok") :=
  C6_store_isolation true "boom" (.error "x")
    ⟨0, true, .netError "boom", .error "x", fun _ => .netError "down"⟩
    ⟨some "tok", some 10000000⟩ "tok" 10000000 rfl (by decide) rfl (by decide)

/-- C9: on a successful remote fetch (2xx, parsable JSON, truthy
`access_token`, integer `expires_in`), both Redis-backed variants set the
local cache to the fetched token with `expiresAt = now + expires_in * 1000`
(`now` the timestamp captured at entry), record a best-effort durable-store
write, and return the token — whatever the store-write outcome is. -/
theorem C9_success_caches (env : Env) (cache : LocalCache) (rc : Nat)
    (r : TokenResponse) (t : String) (sIn : Int)
    (hl : GetAvailability.localFresh env.now cache = false)
    (hr : GetAvailability.redisFresh env.now (storedOf env) = false)
    (hf : env.fetches rc = .success r)
    (hok : responseOk r.status = true)
    (hj : r.jsonOk = true)
    (htok : r.access_token = some t) (hne : t ≠ "")
    (hei : r.expires_in = some sIn) :
    GetAvailability.getAccessToken env cache rc
      = ⟨.ok (some t), ⟨some t, some (env.now + sIn * 1000)⟩,
         [.storeRead, .tokenFetch, .storeWrite (some t) (some (env.now + sIn * 1000))]⟩ ∧
    Part003.getAccessToken env cache rc
      = ⟨.ok (some t), ⟨some t, some (env.now + sIn * 1000)⟩,
         [.storeRead, .tokenFetch, .storeWrite (some t) (some (env.now + sIn * 1000))]⟩ := by
  have hr' : GetAvailability.redisFresh env.now
      (GetAvailability.getFromRedis env.storeConfigured env.storeGet) = false := hr
  have hnot429 : ¬(r.status = 429 ∧ rc < 3) := by
    intro hx
    rw [hx.1] at hok
    exact absurd hok (by decide)
  have htr : truthyStr r.access_token = true := by
    rw [htok]
    simp [truthyStr, hne]
  have hexp : newExpiryOf env.now r.expires_in = some (env.now + sIn * 1000) := by
    rw [hei]
    rfl
  constructor
  · rw [GetAvailability.getAccessToken]
    simp only [hl, hr', Bool.false_eq_true, if_false, hf]
    rw [dif_neg hnot429]
    rw [setInRedis_ok]
    simp [hok, hj, hexp, htok, truthyStr, hne]
  · rw [Part003.getAccessToken]
    simp only [hl, hr', Bool.false_eq_true, if_false, hf]
    rw [dif_neg hnot429]
    rw [setInRedis_ok]
    simp [hok, hj, hexp, htok, truthyStr, hne]

/-- Witness for C9: a 200 response carrying a token and `expires_in = 86400`
is cached with expiry `1000 + 86400000` and returned, even though the
durable-store write outcome is an error. -/
theorem C9_success_caches_witness :
    GetAvailability.getAccessToken
        ⟨1000, true, .noResult, .error "redis down",
         fun _ => .success ⟨200, none, "body", true, some "T", some 86400⟩⟩
        ⟨none, some 0⟩ 0
      = ⟨.ok (some "T"), ⟨some "T", some 86401000⟩,
         [.storeRead, .tokenFetch, .storeWrite (some "T") (some 86401000)]⟩ ∧
    Part003.getAccessToken
        ⟨1000, true, .noResult, .error "redis down",
         fun _ => .success ⟨200, none, "body", true, some "T", some 86400⟩⟩
        ⟨none, some 0⟩ 0
      = ⟨.ok (some "T"), ⟨some "T", some 86401000⟩,
         [.storeRead, .tokenFetch, .storeWrite (some "T") (some 86401000)]⟩ :=
  C9_success_caches
    ⟨1000, true, .noResult, .error "redis down",
     fun _ => .success ⟨200, none, "body", true, some "T", some 86400⟩⟩
    ⟨none, some 0⟩ 0 ⟨200, none, "body", true, some "T", some 86400⟩ "T" 86400
    (by decide) (by decide) rfl (by decide) rfl rfl (by decide) rfl

/-- C10: error atomicity of the local cache: whenever `getAccessToken`
terminates by throwing, the module variables `cachedToken` / `tokenExpiry`
hold exactly their entry values, in both the get-availability and the
part_001 variants; contrapositively, a mutated cache implies a returned
token. -/
theorem C10_error_atomicity (env : Env) (benv : BlobEnv) (cache : LocalCache)
    (rc : Nat) :
    (∀ e, (GetAvailability.getAccessToken env cache rc).result = .error e →
        (GetAvailability.getAccessToken env cache rc).cache = cache) ∧
    (∀ e, (Part001.getAccessToken benv cache rc).result = .error e →
        (Part001.getAccessToken benv cache rc).cache = cache) ∧
    ((GetAvailability.getAccessToken env cache rc).cache ≠ cache →
        ∃ v, (GetAvailability.getAccessToken env cache rc).result = .ok v) ∧
    ((Part001.getAccessToken benv cache rc).cache ≠ cache →
        ∃ v, (Part001.getAccessToken benv cache rc).result = .ok v) := by
  have ha := fun e => avail_cacheOnError env cache (3 - rc) rc le_rfl e
  have hb := fun e => p1_cacheOnError benv cache (3 - rc) rc le_rfl e
  refine ⟨ha, hb, ?_, ?_⟩
  · intro hne
    cases hres : (GetAvailability.getAccessToken env cache rc).result with
    | ok v => exact ⟨v, rfl⟩
    | error e => exact absurd (ha e hres) hne
  · intro hne
    cases hres : (Part001.getAccessToken benv cache rc).result with
    | ok v => exact ⟨v, rfl⟩
    | error e => exact absurd (hb e hres) hne

/-- Witness for C10: a run that throws (network down, empty caches) leaves
the cache variables at their entry values. -/
theorem C10_error_atomicity_witness :
    (GetAvailability.getAccessToken
        ⟨0, false, .noResult, .ok (), fun _ => .netError "down"⟩
        ⟨none, some 0⟩ 0).cache = ⟨none, some 0⟩ ∧
    (Part001.getAccessToken
        ⟨0, .noData, .ok (), fun _ => .netError "down"⟩
        ⟨none, some 0⟩ 0).cache = ⟨none, some 0⟩ := by
  have h := C10_error_atomicity
    ⟨0, false, .noResult, .ok (), fun _ => .netError "down"⟩
    ⟨0, .noData, .ok (), fun _ => .netError "down"⟩ ⟨none, some 0⟩ 0
  refine ⟨h.1 (.netError "down") ?_, h.2.1 (.netError "down") ?_⟩
  · rw [GetAvailability.getAccessToken]
    simp [GetAvailability.localFresh, GetAvailability.getFromRedis,
      GetAvailability.redisFresh, GetAvailability.tokenCatch, truthyStr, jsLt,
      jsSub, jsAdd]
  · rw [Part001.getAccessToken]
    simp [GetAvailability.localFresh, Part001.getStoredToken,
      Part001.blobFresh, Part001.tokenCatch, truthyStr, jsLt, jsSub, jsAdd]

/-- C4: the retry counter is capped at 3 — any call performs at most four
credential-endpoint requests (three retries) — and under sustained 429
responses with no usable cache the fourth 429 is treated as an ordinary
fetch failure: the call throws `Token failed: 429 - <body>` after exactly
four requests instead of retrying further. -/
theorem C4_retry_cap (env : Env) (cache : LocalCache) (r : TokenResponse)
    (hall : ∀ n, env.fetches n = .success r) (h429 : r.status = 429)
    (hl : GetAvailability.localFresh env.now cache = false)
    (hr : GetAvailability.redisFresh env.now (storedOf env) = false)
    (hg : localGrace env.now cache = false)
    (hst : storedTokenTruthy (storedOf env) = false) :
    (∀ env2 cache2,
        fetchCount (GetAvailability.getAccessToken env2 cache2 0).effects ≤ 4 ∧
        fetchCount (Part003.getAccessToken env2 cache2 0).effects ≤ 4) ∧
    (GetAvailability.getAccessToken env cache 0).result
        = .error (.tokenFailed 429 r.bodyText) ∧
    fetchCount (GetAvailability.getAccessToken env cache 0).effects = 4 := by
  have hr' : GetAvailability.redisFresh env.now
      (GetAvailability.getFromRedis env.storeConfigured env.storeGet) = false := hr
  have hcatch : ∀ e, GetAvailability.tokenCatch env.now
      (GetAvailability.getFromRedis env.storeConfigured env.storeGet) cache e
        = .error e :=
    fun e => tokenCatch_error _ _ _ _ hg hst
  have hokf : responseOk r.status = false := by
    rw [h429]
    decide
  have h3 : GetAvailability.getAccessToken env cache 3
      = ⟨.error (.tokenFailed 429 r.bodyText), cache, [.storeRead, .tokenFetch]⟩ := by
    have hn3 : ¬(r.status = 429 ∧ 3 < 3) := fun hx => absurd hx.2 (by decide)
    rw [GetAvailability.getAccessToken]
    simp only [hl, hr', Bool.false_eq_true, if_false, hall 3]
    rw [dif_neg hn3]
    simp [hokf, hcatch, h429]
    intro hx
    exact absurd hx (by decide)
  have h2 : GetAvailability.getAccessToken env cache 2
      = ⟨.error (.tokenFailed 429 r.bodyText), cache,
         [.storeRead, .tokenFetch, .sleep ((2 : Int) ^ 2 * 1000),
          .storeRead, .tokenFetch]⟩ := by
    rw [GetAvailability.getAccessToken]
    simp only [hl, hr', Bool.false_eq_true, if_false, hall 2]
    rw [dif_pos ⟨h429, by decide⟩]
    rw [h3]
    simp [hcatch]
  have h1 : GetAvailability.getAccessToken env cache 1
      = ⟨.error (.tokenFailed 429 r.bodyText), cache,
         [.storeRead, .tokenFetch, .sleep ((2 : Int) ^ 1 * 1000),
          .storeRead, .tokenFetch, .sleep ((2 : Int) ^ 2 * 1000),
          .storeRead, .tokenFetch]⟩ := by
    rw [GetAvailability.getAccessToken]
    simp only [hl, hr', Bool.false_eq_true, if_false, hall 1]
    rw [dif_pos ⟨h429, by decide⟩]
    rw [h2]
    simp [hcatch]
  have h0 : GetAvailability.getAccessToken env cache 0
      = ⟨.error (.tokenFailed 429 r.bodyText), cache,
         [.storeRead, .tokenFetch, .sleep ((2 : Int) ^ 0 * 1000),
          .storeRead, .tokenFetch, .sleep ((2 : Int) ^ 1 * 1000),
          .storeRead, .tokenFetch, .sleep ((2 : Int) ^ 2 * 1000),
          .storeRead, .tokenFetch]⟩ := by
    rw [GetAvailability.getAccessToken]
    simp only [hl, hr', Bool.false_eq_true, if_false, hall 0]
    rw [dif_pos ⟨h429, by decide⟩]
    rw [h1]
    simp [hcatch]
  refine ⟨fun env2 cache2 => ⟨avail_fetchCount_le env2 cache2 3 0 le_rfl,
    p3_fetchCount_le env2 cache2 3 0 le_rfl⟩, ?_, ?_⟩
  · rw [h0]
  · rw [h0]
    simp [fetchCount, List.countP_cons]

/-- Witness for C4: four requests, then the 429 surfaces as a failure. -/
theorem C4_retry_cap_witness :
    (∀ env2 cache2,
        fetchCount (GetAvailability.getAccessToken env2 cache2 0).effects ≤ 4 ∧
        fetchCount (Part003.getAccessToken env2 cache2 0).effects ≤ 4) ∧
    (GetAvailability.getAccessToken
        ⟨0, false, .noResult, .ok (),
         fun _ => .success ⟨429, none, "rate limited", true, none, none⟩⟩
        ⟨none, some 0⟩ 0).result = .error (.tokenFailed 429 "rate limited") ∧
    fetchCount (GetAvailability.getAccessToken
        ⟨0, false, .noResult, .ok (),
         fun _ => .success ⟨429, none, "rate limited", true, none, none⟩⟩
        ⟨none, some 0⟩ 0).effects = 4 :=
  C4_retry_cap
    ⟨0, false, .noResult, .ok (),
     fun _ => .success ⟨429, none, "rate limited", true, none, none⟩⟩
    ⟨none, some 0⟩ ⟨429, none, "rate limited", true, none, none⟩
    (fun _ => rfl) rfl (by decide) (by decide) (by decide) (by decide)

/-- C5 counterexample: on the first attempt the credential endpoint answers
429 with `Retry-After: 7`, yet get-availability.js sleeps 1000 ms — the
`2^attempt`-second schedule — not the 7000 ms the header asks for and not
the 2000 ms of the claimed `2^(attempt+1)` schedule; the header is never
read in this variant. -/
theorem C5_counterexample :
    (GetAvailability.getAccessToken
        ⟨0, false, .noResult, .ok (),
         fun n => if n = 0 then .success ⟨429, some 7, "rate", true, none, none⟩
                  else .netError "down"⟩
        ⟨none, some 0⟩ 0).effects
      = [.storeRead, .tokenFetch, .sleep 1000, .storeRead, .tokenFetch] ∧
    Effect.sleep 7000 ∉ (GetAvailability.getAccessToken
        ⟨0, false, .noResult, .ok (),
         fun n => if n = 0 then .success ⟨429, some 7, "rate", true, none, none⟩
                  else .netError "down"⟩
        ⟨none, some 0⟩ 0).effects ∧
    Effect.sleep 2000 ∉ (GetAvailability.getAccessToken
        ⟨0, false, .noResult, .ok (),
         fun n => if n = 0 then .success ⟨429, some 7, "rate", true, none, none⟩
                  else .netError "down"⟩
        ⟨none, some 0⟩ 0).effects := by
  have hrun : (GetAvailability.getAccessToken
      ⟨0, false, .noResult, .ok (),
       fun n => if n = 0 then .success ⟨429, some 7, "rate", true, none, none⟩
                else .netError "down"⟩
      ⟨none, some 0⟩ 0).effects
        = [.storeRead, .tokenFetch, .sleep 1000, .storeRead, .tokenFetch] := by
    rw [GetAvailability.getAccessToken]
    rw [GetAvailability.getAccessToken]
    simp [GetAvailability.localFresh, GetAvailability.getFromRedis,
      GetAvailability.redisFresh, GetAvailability.tokenCatch, truthyStr, jsLt,
      jsSub, jsAdd]
  refine ⟨hrun, ?_, ?_⟩ <;> rw [hrun] <;> decide

/-- C5 amended: within the retry budget and with both cache tiers missing,
part_003 and part_001 wait `Retry-After` seconds when the header is present
and `2^(attempt+1)` seconds otherwise, while get-availability.js always
waits `2^attempt` seconds and ignores the header. -/
theorem C5_backoff_schedule (env : Env) (benv : BlobEnv)
    (cache cacheb : LocalCache) (rc : Nat) (r rb : TokenResponse)
    (hrc : rc < 3)
    (hl : GetAvailability.localFresh env.now cache = false)
    (hr : GetAvailability.redisFresh env.now (storedOf env) = false)
    (hf : env.fetches rc = .success r) (h429 : r.status = 429)
    (hlb : GetAvailability.localFresh benv.now cacheb = false)
    (hbf : Part001.blobFresh benv.now (blobStoredOf benv) = false)
    (hfb : benv.fetches rc = .success rb) (hb429 : rb.status = 429) :
    (GetAvailability.getAccessToken env cache rc).effects
      = .storeRead :: .tokenFetch :: .sleep ((2 : Int) ^ rc * 1000)
          :: (GetAvailability.getAccessToken env cache (rc + 1)).effects ∧
    (Part003.getAccessToken env cache rc).effects
      = .storeRead :: .tokenFetch
          :: .sleep ((match r.retryAfter with
                      | some a => a
                      | none => (2 : Int) ^ (rc + 1)) * 1000)
          :: (Part003.getAccessToken env cache (rc + 1)).effects ∧
    (Part001.getAccessToken benv cacheb rc).effects
      = .storeRead :: .tokenFetch
          :: .sleep ((match rb.retryAfter with
                      | some a => a
                      | none => (2 : Int) ^ (rc + 1)) * 1000)
          :: (Part001.getAccessToken benv cacheb (rc + 1)).effects := by
  have hr' : GetAvailability.redisFresh env.now
      (GetAvailability.getFromRedis env.storeConfigured env.storeGet) = false := hr
  have hbf' : Part001.blobFresh benv.now
      (Part001.getStoredToken benv.now benv.blobGet) = false := hbf
  refine ⟨?_, ?_, ?_⟩
  · rw [GetAvailability.getAccessToken]
    simp only [hl, hr', Bool.false_eq_true, if_false, hf]
    rw [dif_pos ⟨h429, hrc⟩]
  · rw [Part003.getAccessToken]
    simp only [hl, hr', Bool.false_eq_true, if_false, hf]
    rw [dif_pos ⟨h429, hrc⟩]
  · rw [Part001.getAccessToken]
    simp only [hlb, hbf', Bool.false_eq_true, if_false, hfb]
    rw [dif_pos ⟨hb429, hrc⟩]

/-- Witness for C5 amended: with `Retry-After: 7` on the first attempt,
part_003 sleeps 7000 ms while get-availability.js sleeps 1000 ms. -/
theorem C5_backoff_schedule_witness :
    (GetAvailability.getAccessToken
        ⟨0, false, .noResult, .ok (),
         fun n => if n = 0 then .success ⟨429, some 7, "rate", true, none, none⟩
                  else .netError "down"⟩
        ⟨none, some 0⟩ 0).effects
      = .storeRead :: .tokenFetch :: .sleep ((2 : Int) ^ 0 * 1000)
          :: (GetAvailability.getAccessToken
              ⟨0, false, .noResult, .ok (),
               fun n => if n = 0 then .success ⟨429, some 7, "rate", true, none, none⟩
                        else .netError "down"⟩
              ⟨none, some 0⟩ 1).effects ∧
    (Part003.getAccessToken
        ⟨0, false, .noResult, .ok (),
         fun n => if n = 0 then .success ⟨429, some 7, "rate", true, none, none⟩
                  else .netError "down"⟩
        ⟨none, some 0⟩ 0).effects
      = .storeRead :: .tokenFetch
          :: .sleep ((match (some (7 : Int) : Option Int) with
                      | some a => a
                      | none => (2 : Int) ^ (0 + 1)) * 1000)
          :: (Part003.getAccessToken
              ⟨0, false, .noResult, .ok (),
               fun n => if n = 0 then .success ⟨429, some 7, "rate", true, none, none⟩
                        else .netError "down"⟩
              ⟨none, some 0⟩ 1).effects ∧
    (Part001.getAccessToken
        ⟨0, .noData, .ok (),
         fun n => if n = 0 then .success ⟨429, none, "rate", true, none, none⟩
                  else .netError "down"⟩
        ⟨none, some 0⟩ 0).effects
      = .storeRead :: .tokenFetch
          :: .sleep ((match (none : Option Int) with
                      | some a => a
                      | none => (2 : Int) ^ (0 + 1)) * 1000)
          :: (Part001.getAccessToken
              ⟨0, .noData, .ok (),
               fun n => if n = 0 then .success ⟨429, none, "rate", true, none, none⟩
                        else .netError "down"⟩
              ⟨none, some 0⟩ 1).effects :=
  C5_backoff_schedule
    ⟨0, false, .noResult, .ok (),
     fun n => if n = 0 then .success ⟨429, some 7, "rate", true, none, none⟩
              else .netError "down"⟩
    ⟨0, .noData, .ok (),
     fun n => if n = 0 then .success ⟨429, none, "rate", true, none, none⟩
              else .netError "down"⟩
    ⟨none, some 0⟩ ⟨none, some 0⟩ 0
    ⟨429, some 7, "rate", true, none, none⟩
    ⟨429, none, "rate", true, none, none⟩
    (by decide) (by decide) (by decide) rfl rfl (by decide) (by decide) rfl rfl

/-- An attempt that throws in the token-check-free variants also counts as a
failed attempt for the get-availability variant. -/
theorem failedAttempt_of_NT (o : FetchOutcome)
    (h : failedAttemptNT o = true) : failedAttempt o = true := by
  cases o with
  | netError m => rfl
  | success r =>
      simp only [failedAttemptNT, failedAttempt, Bool.or_eq_true] at h ⊢
      tauto

/-- C1 counterexample: the blob store holds a token past its `expiresAt`
(900000) but within the one-hour grace window at `now = 1000000`; every
fetch fails; the claim demands that this stale token be returned, yet
part_001's `getAccessToken` throws, because `getStoredToken` already
discarded the record (`data.expiry > Date.now()` fails). -/
theorem C1_counterexample :
    ((900000 : Int) - 300000 ≤ 1000000 ∧ (1000000 : Int) < 900000 + 3600000) ∧
    Part001.getAccessToken
        ⟨1000000, .value ⟨some "T", some 900000⟩, .ok (), fun _ => .netError "boom"⟩
        ⟨none, some 0⟩ 0
      = ⟨.error (.netError "boom"), ⟨none, some 0⟩, [.storeRead, .tokenFetch]⟩ := by
  refine ⟨by constructor <;> decide, ?_⟩
  rw [Part001.getAccessToken]
  simp [GetAvailability.localFresh, Part001.getStoredToken, Part001.blobFresh,
    Part001.tokenCatch, truthyStr, jsLt, jsSub, jsAdd]

/-- C1 amended: when every remote attempt fails, a local cached token with
`expiresAt − margin ≤ now < expiresAt + graceWindow` is returned
(get-availability variant), and a durable blob token is returned as the
fallback only while `now < expiresAt`: in part_001 the store read discards
records already past `expiresAt`, so the durable half of the claim holds on
`[expiresAt − margin, expiresAt)` instead of
`[expiresAt − margin, expiresAt + graceWindow)`. -/
theorem C1_stale_fallback (env : Env) (benv : BlobEnv)
    (cache cacheb : LocalCache) (t : String) (ex : Int)
    (s : StoredRec) (tb : String) (exb : Int)
    (hall : ∀ k, failedAttempt (env.fetches k) = true)
    (ht : cache.cachedToken = some t) (hne : t ≠ "")
    (hexp : cache.tokenExpiry = some ex)
    (hwin : ex - 300000 ≤ env.now) (hwin2 : env.now < ex + 3600000)
    (hr : GetAvailability.redisFresh env.now (storedOf env) = false)
    (hallb : ∀ k, failedAttemptNT (benv.fetches k) = true)
    (hcb : truthyStr cacheb.cachedToken = false)
    (hbg : benv.blobGet = .value s)
    (hstok : s.token = some tb) (hbne : tb ≠ "")
    (hsexp : s.expiry = some exb)
    (hbwin : exb - 300000 ≤ benv.now) (hbwin2 : benv.now < exb) :
    (GetAvailability.getAccessToken env cache 0).result = .ok (some t) ∧
    (Part001.getAccessToken benv cacheb 0).result = .ok (some tb) := by
  have htr : truthyStr cache.cachedToken = true := by
    rw [ht]
    simp [truthyStr, hne]
  constructor
  · have hl : GetAvailability.localFresh env.now cache = false := by
      unfold GetAvailability.localFresh
      rw [hexp, jsSub_some, jsLt_some_some]
      simp only [Bool.and_eq_false_iff, decide_eq_false_iff_not, not_lt]
      right
      omega
    have hg : localGrace env.now cache = true := by
      unfold localGrace
      rw [htr, hexp, jsAdd_some, jsLt_some_some]
      simpa using hwin2
    obtain ⟨e1, hres1, -⟩ := avail_allFail env cache hall hl hr 3 0 le_rfl
    rw [tokenCatch_grace _ _ _ _ hg, ht] at hres1
    exact hres1
  · have hsome : Part001.getStoredToken benv.now benv.blobGet = some s := by
      rw [hbg]
      unfold Part001.getStoredToken
      simp [truthyStr, hstok, hbne, hsexp, jsLt_some_some, hbwin2]
    have hsoOf : blobStoredOf benv = some s := hsome
    have hbfresh : Part001.blobFresh benv.now (blobStoredOf benv) = false := by
      rw [hsoOf]
      simp only [Part001.blobFresh]
      rw [hsexp, jsSub_some, jsLt_some_some]
      simp only [decide_eq_false_iff_not, not_lt]
      omega
    have hlb : GetAvailability.localFresh benv.now cacheb = false := by
      unfold GetAvailability.localFresh
      rw [hcb]
      simp
    have hgb : localGrace benv.now cacheb = false := by
      unfold localGrace
      rw [hcb]
      simp
    have hwb : jsLt (some benv.now) (jsAdd s.expiry 3600000) = true := by
      rw [hsexp, jsAdd_some, jsLt_some_some]
      simp only [decide_eq_true_eq]
      omega
    obtain ⟨e2, hres2, -⟩ := p1_allFail benv cacheb hallb hlb hbfresh 3 0 le_rfl
    rw [hsoOf, p1Catch_stored _ _ _ _ hgb hwb, hstok] at hres2
    exact hres2

/-- Witness for C1 amended: a stale local token (expiry 900000, now
1000000) comes back from get-availability.js, a blob token still before its
expiry (1200000) comes back from part_001, both under total fetch failure. -/
theorem C1_stale_fallback_witness :
    (GetAvailability.getAccessToken
        ⟨1000000, false, .noResult, .ok (), fun _ => .netError "down"⟩
        ⟨some "tok", some 900000⟩ 0).result = .ok (some "tok") ∧
    (Part001.getAccessToken
        ⟨1000000, .value ⟨some "TB", some 1200000⟩, .ok (), fun _ => .netError "down"⟩
        ⟨none, some 0⟩ 0).result = .ok (some "TB") :=
  C1_stale_fallback
    ⟨1000000, false, .noResult, .ok (), fun _ => .netError "down"⟩
    ⟨1000000, .value ⟨some "TB", some 1200000⟩, .ok (), fun _ => .netError "down"⟩
    ⟨some "tok", some 900000⟩ ⟨none, some 0⟩ "tok" 900000
    ⟨some "TB", some 1200000⟩ "TB" 1200000
    (fun _ => rfl) rfl (by decide) rfl (by decide) (by decide) (by decide)
    (fun _ => rfl) (by decide) rfl rfl (by decide) rfl (by decide) (by decide)

/-- C2 counterexample: the only cached token lives in Redis with
`expiresAt = 1000`, far beyond the grace window at `now = 10000000`
(`now ≥ expiresAt + 3600000`), the fetch fails, and the claim demands a
failure — yet part_003's `getAccessToken` returns the dead token, because
its catch block checks `stored && stored.token` with no time bound. -/
theorem C2_counterexample :
    ((10000000 : Int) ≥ 1000 + 3600000) ∧
    Part003.getAccessToken
        ⟨10000000, true, .value ⟨some "T", some 1000⟩, .ok (), fun _ => .netError "boom"⟩
        ⟨none, some 0⟩ 0
      = ⟨.ok (some "T"), ⟨none, some 0⟩, [.storeRead, .tokenFetch]⟩ := by
  refine ⟨by decide, ?_⟩
  rw [Part003.getAccessToken]
  simp [GetAvailability.localFresh, GetAvailability.getFromRedis,
    GetAvailability.redisFresh, GetAvailability.tokenCatch, truthyStr, truthyNum,
    jsLt, jsSub, jsAdd]

/-- C2 amended: with every cached token beyond the grace window and every
remote attempt failing, the Redis-backed calls fail — provided the durable
record, when still present, holds no truthy `token` field; a beyond-grace
Redis record that does hold a token is returned instead (see the
counterexample), since the Redis fallback never checks expiry. -/
theorem C2_expired_no_fallback (env : Env) (cache : LocalCache)
    (hallNT : ∀ k, failedAttemptNT (env.fetches k) = true)
    (hg : localGrace env.now cache = false)
    (hsg : storedBeyondGrace env.now (storedOf env) = true)
    (hst : storedTokenTruthy (storedOf env) = false) :
    (∃ e, (GetAvailability.getAccessToken env cache 0).result = .error e) ∧
    (∃ e, (Part003.getAccessToken env cache 0).result = .error e) := by
  have hall : ∀ k, failedAttempt (env.fetches k) = true :=
    fun k => failedAttempt_of_NT _ (hallNT k)
  have hl := localFresh_false_of_grace _ _ hg
  have hr := redisFresh_false_of_beyond _ _ hsg
  obtain ⟨e1, hres1, -⟩ := avail_allFail env cache hall hl hr 3 0 le_rfl
  obtain ⟨e2, hres2, -⟩ := p3_allFail env cache hallNT hl hr 3 0 le_rfl
  rw [tokenCatch_error _ _ _ _ hg hst] at hres1 hres2
  exact ⟨⟨e1, hres1⟩, ⟨e2, hres2⟩⟩

/-- Witness for C2 amended: empty caches, fetch down — both Redis-backed
variants fail. -/
theorem C2_expired_no_fallback_witness :
    (∃ e, (GetAvailability.getAccessToken
        ⟨0, false, .noResult, .ok (), fun _ => .netError "down"⟩
        ⟨none, some 0⟩ 0).result = .error e) ∧
    (∃ e, (Part003.getAccessToken
        ⟨0, false, .noResult, .ok (), fun _ => .netError "down"⟩
        ⟨none, some 0⟩ 0).result = .error e) :=
  C2_expired_no_fallback
    ⟨0, false, .noResult, .ok (), fun _ => .netError "down"⟩
    ⟨none, some 0⟩ (fun _ => rfl) (by decide) (by decide) (by decide)

/-- C7 counterexample: a 200 response whose JSON body has no `access_token`
makes part_000's `getAccessToken` return `undefined` and cache
`{ token: undefined }` — it performs no such check, so the claim that every
such response fails does not hold across the cited variants. -/
theorem C7_counterexample :
    responseOk 200 = true ∧
    Part000.getAccessToken ⟨0, .success ⟨200, none, "{}", true, none, some 86400⟩⟩
        ⟨none, some 0⟩
      = (.ok none, ⟨none, some 86400000⟩, [.tokenFetch]) := by
  refine ⟨by decide, ?_⟩
  unfold Part000.getAccessToken
  simp [truthyStr, jsLt, jsSub, responseOk, newExpiryOf]

/-- C7 amended: only get-availability.js checks the token field: there a
2xx response without a truthy `access_token` throws
`No token in response` (surfaced when no fallback applies), while part_000
returns and caches an undefined token and part_002 returns whatever the
`access_token` field holds — `undefined` when absent. -/
theorem C7_missing_token (env : Env) (cache : LocalCache) (r : TokenResponse)
    (benv : BasicEnv) (r0 : TokenResponse) (c0 : Part000.TokenCache)
    (hl : GetAvailability.localFresh env.now cache = false)
    (hr : GetAvailability.redisFresh env.now (storedOf env) = false)
    (hg : localGrace env.now cache = false)
    (hst : storedTokenTruthy (storedOf env) = false)
    (hf : env.fetches 0 = .success r) (hok : responseOk r.status = true)
    (hj : r.jsonOk = true) (htok : truthyStr r.access_token = false)
    (hb : benv.fetch0 = .success r0) (hok0 : responseOk r0.status = true)
    (hj0 : r0.jsonOk = true) (htok0 : r0.access_token = none)
    (hc0 : truthyStr c0.token = false) :
    (GetAvailability.getAccessToken env cache 0).result
        = .error (.noToken r.bodyText) ∧
    (Part000.getAccessToken benv c0).1 = .ok none ∧
    (Part000.getAccessToken benv c0).2.1.token = none ∧
    (Part002.getAccessToken benv).1 = .ok none := by
  have hr' : GetAvailability.redisFresh env.now
      (GetAvailability.getFromRedis env.storeConfigured env.storeGet) = false := hr
  have hcatch : ∀ e, GetAvailability.tokenCatch env.now
      (GetAvailability.getFromRedis env.storeConfigured env.storeGet) cache e
        = .error e :=
    fun e => tokenCatch_error _ _ _ _ hg hst
  have hn429 : ¬(r.status = 429 ∧ 0 < 3) := by
    intro hx
    rw [hx.1] at hok
    exact absurd hok (by decide)
  refine ⟨?_, ?_, ?_, ?_⟩
  · rw [GetAvailability.getAccessToken]
    simp only [hl, hr', Bool.false_eq_true, if_false, hf]
    rw [dif_neg hn429]
    simp [hok, hj, htok, hcatch]
  · unfold Part000.getAccessToken
    simp [hc0, hb, hok0, hj0, htok0]
  · unfold Part000.getAccessToken
    simp [hc0, hb, hok0, hj0, htok0]
  · unfold Part002.getAccessToken
    simp [hb, hj0, htok0]

/-- Witness for C7 amended at a concrete 200-without-token response. -/
theorem C7_missing_token_witness :
    (GetAvailability.getAccessToken
        ⟨0, false, .noResult, .ok (),
         fun _ => .success ⟨200, none, "{}", true, none, some 86400⟩⟩
        ⟨none, some 0⟩ 0).result = .error (.noToken "{}") ∧
    (Part000.getAccessToken ⟨0, .success ⟨200, none, "{}", true, none, some 86400⟩⟩
        ⟨none, some 0⟩).1 = .ok none ∧
    (Part000.getAccessToken ⟨0, .success ⟨200, none, "{}", true, none, some 86400⟩⟩
        ⟨none, some 0⟩).2.1.token = none ∧
    (Part002.getAccessToken
        ⟨0, .success ⟨200, none, "{}", true, none, some 86400⟩⟩).1 = .ok none :=
  C7_missing_token
    ⟨0, false, .noResult, .ok (),
     fun _ => .success ⟨200, none, "{}", true, none, some 86400⟩⟩
    ⟨none, some 0⟩ ⟨200, none, "{}", true, none, some 86400⟩
    ⟨0, .success ⟨200, none, "{}", true, none, some 86400⟩⟩
    ⟨200, none, "{}", true, none, some 86400⟩ ⟨none, some 0⟩
    (by decide) (by decide) (by decide) (by decide) rfl (by decide) rfl
    (by decide) rfl (by decide) rfl rfl (by decide)

/-- C8 counterexample: part_002's `getAccessToken` performs no status check
at all: a 500 response with a parsable JSON body yields `.ok undefined`
instead of an error carrying the status code and body text. -/
theorem C8_counterexample :
    responseOk 500 = false ∧
    Part002.getAccessToken ⟨0, .success ⟨500, none, "oops", true, none, none⟩⟩
      = (.ok none, [.tokenFetch]) := by
  refine ⟨by decide, ?_⟩
  unfold Part002.getAccessToken
  simp

/-- C8 amended: the variants that check `response.ok` (get-availability.js,
get-quote.js) fail on a non-2xx, non-retried-429 response with
`Token failed: <status> - <body>` — an error carrying the status code and
the upstream body text — while part_002 never checks the status and returns
the body's `access_token` field instead. -/
theorem C8_non2xx_error (env : Env) (cache : LocalCache) (r : TokenResponse)
    (benv : BasicEnv) (r0 : TokenResponse) (cq : LocalCache)
    (hl : GetAvailability.localFresh env.now cache = false)
    (hr : GetAvailability.redisFresh env.now (storedOf env) = false)
    (hg : localGrace env.now cache = false)
    (hst : storedTokenTruthy (storedOf env) = false)
    (hf : env.fetches 0 = .success r) (hok : responseOk r.status = false)
    (h429 : r.status ≠ 429)
    (hlq : GetQuote.localFresh benv.now cq = false)
    (hb : benv.fetch0 = .success r0) (hok0 : responseOk r0.status = false)
    (hj0 : r0.jsonOk = true) :
    (GetAvailability.getAccessToken env cache 0).result
        = .error (.tokenFailed r.status r.bodyText) ∧
    (GetQuote.getAccessToken benv cq).result
        = .error (.tokenFailed r0.status r0.bodyText) ∧
    (Part002.getAccessToken benv).1 = .ok r0.access_token := by
  have hr' : GetAvailability.redisFresh env.now
      (GetAvailability.getFromRedis env.storeConfigured env.storeGet) = false := hr
  have hcatch : ∀ e, GetAvailability.tokenCatch env.now
      (GetAvailability.getFromRedis env.storeConfigured env.storeGet) cache e
        = .error e :=
    fun e => tokenCatch_error _ _ _ _ hg hst
  have hn429 : ¬(r.status = 429 ∧ 0 < 3) := fun hx => h429 hx.1
  refine ⟨?_, ?_, ?_⟩
  · rw [GetAvailability.getAccessToken]
    simp only [hl, hr', Bool.false_eq_true, if_false, hf]
    rw [dif_neg hn429]
    simp [hok, hcatch]
  · rw [GetQuote.getAccessToken]
    simp [hlq, hb, hok0]
  · unfold Part002.getAccessToken
    simp [hb, hj0]

/-- Witness for C8 amended at a concrete 500 response with body text. -/
theorem C8_non2xx_error_witness :
    (GetAvailability.getAccessToken
        ⟨0, false, .noResult, .ok (),
         fun _ => .success ⟨500, none, "oops", true, none, none⟩⟩
        ⟨none, some 0⟩ 0).result = .error (.tokenFailed 500 "oops") ∧
    (GetQuote.getAccessToken ⟨0, .success ⟨500, none, "oops", true, none, none⟩⟩
        ⟨none, some 0⟩).result = .error (.tokenFailed 500 "oops") ∧
    (Part002.getAccessToken
        ⟨0, .success ⟨500, none, "oops", true, none, none⟩⟩).1 = .ok none :=
  C8_non2xx_error
    ⟨0, false, .noResult, .ok (),
     fun _ => .success ⟨500, none, "oops", true, none, none⟩⟩
    ⟨none, some 0⟩ ⟨500, none, "oops", true, none, none⟩
    ⟨0, .success ⟨500, none, "oops", true, none, none⟩⟩
    ⟨500, none, "oops", true, none, none⟩ ⟨none, some 0⟩
    (by decide) (by decide) (by decide) (by decide) rfl (by decide) (by decide)
    (by decide) rfl (by decide) rfl

end GuestyToken
